import Mathlib

/-
  Verification of the librarylint media-deduplication core (src/librarylint.py).

  The Python source is shallowly embedded over `List Char` / `String` / `Nat` /
  `Option`.  Conventions of the embedding:
  * Python `Path(x).stem` is modelled for bare names (no path separator), as at
    every call site of `get_normalized_title` / `get_episode_info`.
  * Python regular expressions are embedded as the specific matching functions
    they denote on newline-free ASCII text (all call sites pass folder/file
    names); `str.lower()` is modelled as ASCII lowering.
  * Filesystem and subprocess I/O (file bytes, MediaInfo probe results) are
    inputs of the embedded functions; an I/O failure is the `none` value.
  * Python float arithmetic in the similar-size test is modelled by exact
    rationals, and the MD5 digest is a parameter of the hashing function (the
    claims concern which bytes are digested, not the digest itself).
-/

/-! ## Character helpers -/

/-- Python `\s` on ASCII text: space, tab, newline, carriage return,
vertical tab, form feed. -/
def mySpace (c : Char) : Bool :=
  c == ' ' || c == '\t' || c == '\n' || c == '\r' || c == '\x0b' || c == '\x0c'

/-- The 26 ASCII case pairs. -/
def lowerPairs : List (Char × Char) :=
  [('A', 'a'), ('B', 'b'), ('C', 'c'), ('D', 'd'), ('E', 'e'), ('F', 'f'),
   ('G', 'g'), ('H', 'h'), ('I', 'i'), ('J', 'j'), ('K', 'k'), ('L', 'l'),
   ('M', 'm'), ('N', 'n'), ('O', 'o'), ('P', 'p'), ('Q', 'q'), ('R', 'r'),
   ('S', 's'), ('T', 't'), ('U', 'u'), ('V', 'v'), ('W', 'w'), ('X', 'x'),
   ('Y', 'y'), ('Z', 'z')]

/-- ASCII lowering, the model of Python `str.lower()` on ASCII names. -/
def lowerChar (c : Char) : Char :=
  match lowerPairs.find? (fun p => p.1 == c) with
  | some p => p.2
  | none => c

def lowerList (l : List Char) : List Char := l.map lowerChar

/-! ## `Path(name).stem` (pathlib semantics for a bare name) -/

/-- Index of the last `'.'` in the list, if any. -/
def lastDotIdx : List Char → Option Nat
  | [] => none
  | c :: cs =>
    match lastDotIdx cs with
    | some i => some (i + 1)
    | none => if c = '.' then some 0 else none

/-- `Path(name).stem`: drop the suffix from the last dot on, but only when
that dot is neither the first character nor the last one (cpython
`PurePath.stem`: `0 < i < len(name) - 1`). -/
def stemChars (l : List Char) : List Char :=
  match lastDotIdx l with
  | some i => if 0 < i ∧ i + 1 < l.length then l.take i else l
  | none => l

/-! ## Year token detection (regex `(19|20)\d{2}`) -/

/-- ASCII `\d`. -/
def isDig (c : Char) : Bool :=
  c == '0' || c == '1' || c == '2' || c == '3' || c == '4' ||
  c == '5' || c == '6' || c == '7' || c == '8' || c == '9'

/-- The list starts with a 4-digit year token `19xx`/`20xx`. -/
def yearHead : List Char → Bool
  | c1 :: c2 :: c3 :: c4 :: _ =>
    ((c1 == '1' && c2 == '9') || (c1 == '2' && c2 == '0')) && isDig c3 && isDig c4
  | _ => false

/-- `re.search(r'(19|20)\d{2}', s)`: the leftmost year token, if any. -/
def findYear : List Char → Option (List Char)
  | [] => none
  | c :: cs => if yearHead (c :: cs) then some (List.take 4 (c :: cs)) else findYear cs

/-- `re.sub(r'[\(\[]?(19|20)\d{2}[\)\]]?.*$', '', s)`: cut the string at the
leftmost position where an (optionally bracket-prefixed) year token starts. -/
def truncAtYear : List Char → List Char
  | [] => []
  | c :: cs =>
    if yearHead (c :: cs) || ((c == '(' || c == '[') && yearHead cs) then []
    else c :: truncAtYear cs

/-! ## Quality-token truncation (regex `\s*(tok1|tok2|...).*$`, IGNORECASE) -/

/-- `tok` (given lowercase) starts the text, case-insensitively. -/
def ciHasPre : List Char → List Char → Bool
  | [], _ => true
  | _ :: _, [] => false
  | t :: ts, c :: cs => (lowerChar c == t) && ciHasPre ts cs

def tokenHere (toks : List (List Char)) (l : List Char) : Bool :=
  toks.any (fun t => ciHasPre t l)

/-- Cut the string at the leftmost position where optional whitespace followed
by one of the tokens starts (the tokens contain no whitespace, so the
regex `\s*` can only succeed by consuming the maximal whitespace run). -/
def truncAtToks (toks : List (List Char)) : List Char → List Char
  | [] => []
  | c :: cs =>
    if tokenHere toks ((c :: cs).dropWhile mySpace) then []
    else c :: truncAtToks toks cs

/-- Token alternation of line 1418 of the source, lowercased. -/
def normTokens : List (List Char) :=
  (["720p", "1080p", "2160p", "4k", "hdrip", "dvdrip", "brrip", "bluray",
    "web-dl", "webrip", "x264", "x265", "hevc"]).map String.data

/-! ## Separator normalization -/

/-- `re.sub(r'\.', ' ', s)` pointwise. -/
def dotToSpace (c : Char) : Char := if c = '.' then ' ' else c

/-- `re.sub(r'[_-]', ' ', s)` pointwise. -/
def dashToSpace (c : Char) : Char := if c = '_' ∨ c = '-' then ' ' else c

/-- `re.sub(r'\s+', ' ', s)`: every maximal whitespace run becomes one space.
The Boolean argument records whether the previous character was whitespace. -/
def collapseWs : Bool → List Char → List Char
  | _, [] => []
  | b, c :: cs =>
    if mySpace c then
      (if b then collapseWs true cs else ' ' :: collapseWs true cs)
    else c :: collapseWs false cs

/-- Python `str.strip()` on ASCII whitespace. -/
def trim (l : List Char) : List Char :=
  ((l.dropWhile mySpace).reverse.dropWhile mySpace).reverse

/-- `re.sub(r'^(the|a|an)\s+', '', s)` on lowercased text: remove one leading
article together with the whitespace run after it.  The three regex
alternatives are mutually exclusive here, since `a` only fires when
whitespace follows the `a`, which rules out `an`. -/
def dropArticle (l : List Char) : List Char :=
  match l with
  | 't' :: 'h' :: 'e' :: c :: cs =>
    if mySpace c then (c :: cs).dropWhile mySpace else l
  | 'a' :: 'n' :: c :: cs =>
    if mySpace c then (c :: cs).dropWhile mySpace else l
  | 'a' :: c :: cs =>
    if mySpace c then (c :: cs).dropWhile mySpace else l
  | _ => l

/-! ## `get_normalized_title` (source lines 1405–1430) -/

structure TitleInfo where
  normalized_title : String
  year : Option String
deriving DecidableEq

/-- The title pipeline applied to an already-stemmed name: year/quality-token
truncation, separator normalization, whitespace collapse, strip, lower,
article removal (source lines 1416–1427, in order). -/
def normTitleChars (b : List Char) : List Char :=
  dropArticle (lowerList (trim (collapseWs false
    (List.map dashToSpace (List.map dotToSpace
      (truncAtToks normTokens (truncAtYear b)))))))

/-- `get_normalized_title` after the `Path(name).stem` step: leftmost-year
extraction plus the title pipeline. -/
def normalizeStemFull (b : List Char) : TitleInfo :=
  { normalized_title := String.mk (normTitleChars b)
    year := (findYear b).map String.mk }

/-- `get_normalized_title` (source lines 1405–1430). -/
def get_normalized_title (name : String) : TitleInfo :=
  normalizeStemFull (stemChars name.data)

example : get_normalized_title "The.Matrix.1999.1080p.BluRay.x264" =
    { normalized_title := "matrix", year := some "1999" } := by decide

example : get_normalized_title "Heat.1995" =
    { normalized_title := "heat", year := none } := by decide

example : get_normalized_title ".1995" =
    { normalized_title := "", year := some "1995" } := by decide

example : get_normalized_title "Mr. Nobody" =
    { normalized_title := "mr", year := none } := by decide

/-! ## `get_episode_info` (source lines 1348–1402) -/

structure EpisodeInfo where
  season : Option Nat
  episode : Option Nat
  episodes : List Nat
  show_title : Option String
  episode_title : Option String
  is_multi_episode : Bool
deriving DecidableEq

/-- The `info` dictionary as initialized at the top of `get_episode_info`. -/
def emptyEpisodeInfo : EpisodeInfo :=
  { season := none, episode := none, episodes := [], show_title := none,
    episode_title := none, is_multi_episode := false }

/-- Separator class `[.\s_-]` of the episode patterns. -/
def sepCh (c : Char) : Bool := c == '.' || mySpace c || c == '_' || c == '-'

def isEe (c : Char) : Bool := c == 'E' || c == 'e'

def digitVal (c : Char) : Nat := c.toNat - 48

/-- Greedy `(\d{1,2})` whose continuation always succeeds: take two digits if
available, else one, else fail. -/
def twoDigits : List Char → Option (Nat × List Char)
  | a :: b :: r =>
    if a.isDigit && b.isDigit then some (10 * digitVal a + digitVal b, r)
    else if a.isDigit then some (digitVal a, b :: r)
    else none
  | [a] => if a.isDigit then some (digitVal a, []) else none
  | [] => none

/-- Optional group `(?:[Ee-](\d{1,2}))?`: an `E`/`e`/`-` marker followed by one
or two digits (greedy, continuation always succeeds). -/
def epSuffix (l : List Char) : Option (Nat × List Char) :=
  match l with
  | c :: rest =>
    if isEe c || c == '-' then
      match twoDigits rest with
      | some (n, r) => some (n, r)
      | none => none
    else none
  | [] => none

/-- `(\d{1,2})[Ee]` with regex backtracking: two digits are taken only when an
`E` follows them, else one digit followed by an `E`, else failure. -/
def seasonThenE : List Char → Option (Nat × List Char)
  | a :: b :: c :: r =>
    if a.isDigit && b.isDigit && isEe c then some (10 * digitVal a + digitVal b, r)
    else if a.isDigit && isEe b then some (digitVal a, c :: r)
    else none
  | [a, b] => if a.isDigit && isEe b then some (digitVal a, []) else none
  | _ => none

/-- Parse of pattern 1 after the lazy `(.+?)` group: `[.\s_-]+[Ss](\d{1,2})`
`[Ee](\d{1,2})(?:[Ee-](\d{1,2}))?(?:[Ee-](\d{1,2}))?(.*)$`.  The separator
run is taken maximally (the following `[Ss]` cannot match a separator),
and a failed first optional group forces the identical second optional
group to fail at the same position. -/
def p1After (rest : List Char) : Option (Nat × Nat × Option Nat × Option Nat × List Char) :=
  match rest with
  | c :: cs =>
    if sepCh c then
      match cs.dropWhile sepCh with
      | s :: r1 =>
        if s == 'S' || s == 's' then
          match seasonThenE r1 with
          | some (sea, r2) =>
            match twoDigits r2 with
            | some (ep, r3) =>
              match epSuffix r3 with
              | some (e4, r4) =>
                match epSuffix r4 with
                | some (e5, r5) => some (sea, ep, some e4, some e5, r5)
                | none => some (sea, ep, some e4, none, r4)
              | none => some (sea, ep, none, none, r3)
            | none => none
          | none => none
        else none
      | [] => none
    else none
  | [] => none

/-- Lazy scan of `^(.+?)` for pattern 1: the split with the shortest non-empty
leading group that lets the rest of the pattern match wins. -/
def p1Scan (pre rest : List Char) :
    Option (List Char × Nat × Nat × Option Nat × Option Nat × List Char) :=
  match rest with
  | [] => none
  | c :: cs =>
    match p1After cs with
    | some r => some (pre ++ [c], r)
    | none => p1Scan (pre ++ [c]) cs

/-- `(\d{1,2})x(\d{1,2})` for pattern 2 (`x` is case-sensitive: pattern 2 is
compiled without `IGNORECASE`). -/
def p2After (rest : List Char) : Option (Nat × Nat × List Char) :=
  match rest with
  | c :: cs =>
    if sepCh c then
      match cs.dropWhile sepCh with
      | a :: b :: r1 =>
        if a.isDigit && b.isDigit then
          match r1 with
          | x :: r2 =>
            if x == 'x' then
              match twoDigits r2 with
              | some (ep, r3) => some (10 * digitVal a + digitVal b, ep, r3)
              | none => none
            else none
          | [] => none
        else if a.isDigit && b == 'x' then
          match twoDigits r1 with
          | some (ep, r2) => some (digitVal a, ep, r2)
          | none => none
        else none
      | _ => none
    else none
  | [] => none

def p2Scan (pre rest : List Char) : Option (List Char × Nat × Nat) :=
  match rest with
  | [] => none
  | c :: cs =>
    match p2After cs with
    | some (sea, ep, _) => some (pre ++ [c], sea, ep)
    | none => p2Scan (pre ++ [c]) cs

/-- The literal word `Episode`/`Season` etc. as a case-insensitive front. -/
def ciWordThen (w : List Char) (l : List Char) : Option (List Char) :=
  if ciHasPre w l then some (l.drop w.length) else none

/-- Continuation of pattern 3 after the season digits:
`[.\s_-]+Episode\s*(\d{1,2})(.*)$`. -/
def p3Episode (rest : List Char) : Option Nat :=
  match rest with
  | c :: cs =>
    if sepCh c then
      match ciWordThen "episode".data (cs.dropWhile sepCh) with
      | some r1 =>
        match twoDigits (r1.dropWhile mySpace) with
        | some (ep, _) => some ep
        | none => none
      | none => none
    else none
  | [] => none

/-- Parse of pattern 3 after the lazy group:
`[.\s_-]+Season\s*(\d{1,2})[.\s_-]+Episode\s*(\d{1,2})(.*)$` (IGNORECASE).
The two-digit season parse is tried first and backtracks to one digit
when the rest of the pattern fails after it. -/
def p3After (rest : List Char) : Option (Nat × Nat) :=
  match rest with
  | c :: cs =>
    if sepCh c then
      match ciWordThen "season".data (cs.dropWhile sepCh) with
      | some r1 =>
        match r1.dropWhile mySpace with
        | a :: r2 =>
          if a.isDigit then
            match r2 with
            | b :: r3 =>
              if b.isDigit then
                match p3Episode r3 with
                | some ep => some (10 * digitVal a + digitVal b, ep)
                | none =>
                  match p3Episode (b :: r3) with
                  | some ep => some (digitVal a, ep)
                  | none => none
              else
                match p3Episode (b :: r3) with
                | some ep => some (digitVal a, ep)
                | none => none
            | [] => none
          else none
        | [] => none
      | none => none
    else none
  | [] => none

def p3Scan (pre rest : List Char) : Option (List Char × Nat × Nat) :=
  match rest with
  | [] => none
  | c :: cs =>
    match p3After cs with
    | some (sea, ep) => some (pre ++ [c], sea, ep)
    | none => p3Scan (pre ++ [c]) cs

/-- Token alternation of the episode-title cleanup (source line 1378),
lowercased. -/
def epTokens : List (List Char) :=
  (["720p", "1080p", "2160p", "4k", "hdtv", "web-dl", "webrip", "bluray",
    "x264", "x265", "hevc", "aac", "ac3"]).map String.data

/-- Episode-title recovery from the trailing group of pattern 1 (source lines
1375–1380): strip leading separators, dots to spaces, cut quality tokens,
strip; empty means no title. -/
def epTitleOf (g6 : List Char) : Option String :=
  let r := trim (truncAtToks epTokens (List.map dotToSpace (g6.dropWhile sepCh)))
  if r = [] then none else some (String.mk r)

/-- `get_episode_info` (source lines 1348–1402): stem the file name, then try
pattern 1 (`S01E01`, `S01E01E02`, `S01E01-02`), pattern 2 (`1x01`) and
pattern 3 (`Season 1 Episode 1`) in order. -/
def get_episode_info (filename : String) : EpisodeInfo :=
  let basename := stemChars filename.data
  match p1Scan [] basename with
  | some (g1, sea, ep, g4, g5, g6) =>
    { season := some sea
      episode := some ep
      episodes := ep :: (match g4 with | some e4 => [e4] | none => []) ++
        (match g5 with | some e5 => [e5] | none => [])
      show_title := some (String.mk (trim (List.map dotToSpace g1)))
      episode_title := epTitleOf g6
      is_multi_episode := g4.isSome }
  | none =>
    match p2Scan [] basename with
    | some (g1, sea, ep) =>
      { emptyEpisodeInfo with
          season := some sea
          episode := some ep
          episodes := [ep]
          show_title := some (String.mk (trim (List.map dotToSpace g1))) }
    | none =>
      match p3Scan [] basename with
      | some (g1, sea, ep) =>
        { emptyEpisodeInfo with
            season := some sea
            episode := some ep
            episodes := [ep]
            show_title := some (String.mk (trim (List.map dotToSpace g1))) }
      | none => emptyEpisodeInfo

example : get_episode_info "Show.Name.S02E05.mkv" =
    { season := some 2, episode := some 5, episodes := [5],
      show_title := some "Show Name", episode_title := none,
      is_multi_episode := false } := by decide

example : (get_episode_info "Show.Name.S02E05E06.mkv").episodes = [5, 6] := by decide

example : (get_episode_info "Show.Name.S02E05E06.mkv").is_multi_episode = true := by decide

example : (get_episode_info "Show.S01E01E02E03E04.mkv").episodes = [1, 2, 3] := by decide

example : (get_episode_info "Show.S01E01E02E03E04.mkv").episode_title = some "E04" := by decide

example : (get_episode_info "Show.S01E01-03.mkv").episodes = [1, 3] := by decide

/-! ## Substring matchers for the quality scorer -/

/-- Case-sensitive "starts with" on already-lowercased text. -/
def hasPreB : List Char → List Char → Bool
  | [], _ => true
  | _ :: _, [] => false
  | p :: ps, c :: cs => p == c && hasPreB ps cs

/-- Python `pat in s` / `re.search` of a literal pattern. -/
def isSubstrOfB (pat : List Char) : List Char → Bool
  | [] => pat.isEmpty
  | c :: cs => hasPreB pat (c :: cs) || isSubstrOfB pat cs

def containsStr (pat : String) (l : List Char) : Bool := isSubstrOfB pat.data l

def anyStr (pats : List String) (l : List Char) : Bool :=
  pats.any (fun p => containsStr p l)

/-- `re.search(a + '.*' + b, s)` on newline-free text: an occurrence of `a`
with an occurrence of `b` somewhere after it. -/
def containsSeq (a b : List Char) : List Char → Bool
  | [] => a.isEmpty && b.isEmpty
  | c :: cs => (hasPreB a (c :: cs) && isSubstrOfB b ((c :: cs).drop a.length)) || containsSeq a b cs

/-- Separator class `[\s.\-]` used by the audio/HDR filename patterns. -/
def sepd (c : Char) : Bool := mySpace c || c == '.' || c == '-'

/-- Consume one optional `[\s.\-]` separator (the following literal never
starts with a separator, so the regex `?` is deterministic here). -/
def optSep (l : List Char) : List Char :=
  match l with
  | c :: rest => if sepd c then rest else l
  | [] => l

/-- `dts[\s.\-]?x|dtsx` at this position. -/
def dtsXHere (l : List Char) : Bool :=
  hasPreB "dts".data l && hasPreB "x".data (optSep (l.drop 3))

def containsDtsX : List Char → Bool
  | [] => false
  | c :: cs => dtsXHere (c :: cs) || containsDtsX cs

/-- `dts-hd|dtshd|dts[\s.\-]?hd[\s.\-]?ma` at this position. -/
def dtsHdHere (l : List Char) : Bool :=
  hasPreB "dts-hd".data l || hasPreB "dtshd".data l ||
    (hasPreB "dts".data l &&
      (let r := optSep (l.drop 3)
       hasPreB "hd".data r && hasPreB "ma".data (optSep (r.drop 2))))

def containsDtsHd : List Char → Bool
  | [] => false
  | c :: cs => dtsHdHere (c :: cs) || containsDtsHd cs

/-- `dolby[\s.\-]?vision|dovi|dv[\s.\-]hdr|\.dv\.` at this position. -/
def dolbyHere (l : List Char) : Bool :=
  (hasPreB "dolby".data l && hasPreB "vision".data (optSep (l.drop 5))) ||
    hasPreB "dovi".data l ||
    (hasPreB "dv".data l &&
      (match l.drop 2 with
       | c :: rest => sepd c && hasPreB "hdr".data rest
       | [] => false)) ||
    hasPreB ".dv.".data l

def containsDolby : List Char → Bool
  | [] => false
  | c :: cs => dolbyHere (c :: cs) || containsDolby cs

/-! ## `get_quality_score` (source lines 718–990) -/

/-- The fields of the MediaInfo probe dictionary that `get_quality_score`
consults (the remaining keys — duration, frame rate, container,
resolution label — are not read by the scorer).  `video_codec` and
`audio_codec` default to `"Unknown"` in `get_mediainfo_details`. -/
structure MediaInfo where
  video_codec : String
  audio_codec : String
  width : Nat
  height : Nat
  bitrate : Nat
  audio_channels : Nat
  hdr : Bool
deriving DecidableEq

/-- The quality dictionary (source lines 720–734).  The `details` rationale
strings are omitted from the embedding: they are reporting-only text and
no claim consults them. -/
structure Quality where
  score : Nat
  resolution : String
  codec : String
  source : String
  audio : String
  hdr : Bool
  hdr_format : Option String
  bitrate : Nat
  width : Nat
  height : Nat
  audio_channels : Nat
  data_source : String
deriving DecidableEq

def quality0 : Quality :=
  { score := 0, resolution := "Unknown", codec := "Unknown", source := "Unknown",
    audio := "Unknown", hdr := false, hdr_format := none, bitrate := 0,
    width := 0, height := 0, audio_channels := 0, data_source := "Filename" }

/-- Resolution from probed dimensions (source lines 748–769). -/
def resStepMI (h : Nat) (q : Quality) : Quality :=
  if 2160 ≤ h then { q with resolution := "2160p", score := q.score + 100 }
  else if 1080 ≤ h then { q with resolution := "1080p", score := q.score + 80 }
  else if 720 ≤ h then { q with resolution := "720p", score := q.score + 60 }
  else if 480 ≤ h then { q with resolution := "480p", score := q.score + 40 }
  else if 0 < h then { q with resolution := toString h ++ "p", score := q.score + 20 }
  else q

/-- Video codec pattern table, probed path (source lines 771–791), in dict
order with the for-else `+10` fallback for a non-empty unmatched codec. -/
def codecStepMI (vc : String) (q : Quality) : Quality :=
  if vc = "" then q
  else if containsStr "hevc" (lowerList vc.data) || containsStr "h265" (lowerList vc.data)
      || containsStr "h.265" (lowerList vc.data) then
    { q with codec := "HEVC/x265", score := q.score + 20 }
  else if containsStr "avc" (lowerList vc.data) || containsStr "h264" (lowerList vc.data)
      || containsStr "h.264" (lowerList vc.data) then
    { q with codec := "x264", score := q.score + 15 }
  else if containsStr "av1" (lowerList vc.data) then
    { q with codec := "AV1", score := q.score + 25 }
  else if containsStr "vp9" (lowerList vc.data) then
    { q with codec := "VP9", score := q.score + 18 }
  else if containsStr "mpeg-4" (lowerList vc.data) || containsStr "divx" (lowerList vc.data)
      || containsStr "xvid" (lowerList vc.data) then
    { q with codec := "XviD", score := q.score + 5 }
  else if containsStr "vc-1" (lowerList vc.data) || containsStr "wmv" (lowerList vc.data) then
    { q with codec := "VC-1", score := q.score + 8 }
  else { q with codec := vc, score := q.score + 10 }

/-- The `audio_map` dict of the probed path (source lines 798–809), as the
ordered first-match-wins pattern table the loop at lines 810–815
iterates: (matcher, label, points).  `^DTS$` is a full match, the `.*`
patterns are embedded by `containsSeq`. -/
def audioMapMI : List ((List Char → Bool) × String × Nat) :=
  [(fun v => containsStr "atmos" v, "Atmos", 15),
   (fun v => containsStr "truehd" v, "TrueHD", 12),
   (fun v => containsStr "dts-hd" v || containsSeq "dts".data "hd".data v, "DTS-HD", 10),
   (fun v => containsSeq "dts".data "x".data v || containsStr "dts:x" v, "DTS:X", 14),
   (fun v => v == "dts".data, "DTS", 8),
   (fun v => containsStr "e-ac-3" v || containsStr "eac3" v, "EAC3", 7),
   (fun v => containsStr "ac-3" v || containsStr "ac3" v, "AC3", 5),
   (fun v => containsStr "aac" v, "AAC", 3),
   (fun v => containsStr "flac" v, "FLAC", 6),
   (fun v => containsStr "opus" v, "Opus", 4)]

/-- The first matching row sets the audio label and points; no match leaves
the quality unchanged (the loop has no else clause). -/
def applyAudioTable (v : List Char) :
    List ((List Char → Bool) × String × Nat) → Quality → Quality
  | [], q => q
  | (test, name, pts) :: rest, q =>
    if test v then { q with audio := name, score := q.score + pts }
    else applyAudioTable v rest q

def audioStepMI (ac : String) (q : Quality) : Quality :=
  if ac = "" then q else applyAudioTable (lowerList ac.data) audioMapMI q

/-- `hdr_scores.get(format, 10)` (source lines 823–830). -/
def hdrPts (f : String) : Nat :=
  if f = "Dolby Vision" then 18
  else if f = "HDR10+" then 16
  else if f = "HDR10" then 12
  else if f = "HLG" then 10
  else if f = "HDR" then 10
  else 10

/-- HDR detection, probed path (source lines 817–835).  `hd` is the `format`
field of `get_mediainfo_hdr_format`, `none` when that call returned no
format. -/
def hdrStepMI (hdrFlag : Bool) (hd : Option String) (q : Quality) : Quality :=
  if hdrFlag then
    match hd with
    | some f => { q with hdr := true, hdr_format := some f, score := q.score + hdrPts f }
    | none => { q with hdr := true, score := q.score + 10 }
  else q

/-- Bitrate bonus (source lines 837–851).  `bitrate / 1000000 >= k` on Python
floats coincides with the integer comparison for every integer bitrate,
since consecutive integers divided by 10^6 round to doubles well apart
from the decision thresholds. -/
def bitrateStep (q : Quality) : Quality :=
  if 0 < q.bitrate then
    if 40000000 ≤ q.bitrate then { q with score := q.score + 20 }
    else if 20000000 ≤ q.bitrate then { q with score := q.score + 15 }
    else if 10000000 ≤ q.bitrate then { q with score := q.score + 10 }
    else if 5000000 ≤ q.bitrate then { q with score := q.score + 5 }
    else q
  else q

/-- Resolution keywords, filename fallback (source lines 858–874). -/
def resStepFN (fl : List Char) (q : Quality) : Quality :=
  if anyStr ["2160p", "4k", "uhd"] fl then
    { q with resolution := "2160p", score := q.score + 100 }
  else if containsStr "1080p" fl then { q with resolution := "1080p", score := q.score + 80 }
  else if containsStr "720p" fl then { q with resolution := "720p", score := q.score + 60 }
  else if anyStr ["480p", "dvd"] fl then { q with resolution := "480p", score := q.score + 40 }
  else q

/-- Codec keywords, filename fallback (source lines 876–896). -/
def codecStepFN (fl : List Char) (q : Quality) : Quality :=
  if containsStr "av1" fl then { q with codec := "AV1", score := q.score + 25 }
  else if anyStr ["x265", "h265", "h.265", "hevc"] fl then
    { q with codec := "HEVC/x265", score := q.score + 20 }
  else if containsStr "vp9" fl then { q with codec := "VP9", score := q.score + 18 }
  else if anyStr ["x264", "h264", "h.264", "avc"] fl then
    { q with codec := "x264", score := q.score + 15 }
  else if anyStr ["xvid", "divx"] fl then { q with codec := "XviD", score := q.score + 5 }
  else q

/-- Audio keywords, filename fallback (source lines 898–934). -/
def audioStepFN (fl : List Char) (q : Quality) : Quality :=
  if containsStr "atmos" fl then { q with audio := "Atmos", score := q.score + 15 }
  else if containsDtsX fl then { q with audio := "DTS:X", score := q.score + 14 }
  else if containsStr "truehd" fl then { q with audio := "TrueHD", score := q.score + 12 }
  else if containsDtsHd fl then { q with audio := "DTS-HD", score := q.score + 10 }
  else if containsStr "dts" fl then { q with audio := "DTS", score := q.score + 8 }
  else if anyStr ["eac3", "ddp", "dd+"] fl then { q with audio := "EAC3", score := q.score + 7 }
  else if anyStr ["ac3", "dd5.1"] fl then { q with audio := "AC3", score := q.score + 5 }
  else if containsStr "flac" fl then { q with audio := "FLAC", score := q.score + 6 }
  else if containsStr "aac" fl then { q with audio := "AAC", score := q.score + 3 }
  else q

/-- HDR keywords, filename fallback (source lines 936–961). -/
def hdrStepFN (fl : List Char) (q : Quality) : Quality :=
  if containsDolby fl then
    { q with hdr := true, hdr_format := some "Dolby Vision", score := q.score + 18 }
  else if containsStr "hdr10+" fl || containsStr "hdr10plus" fl then
    { q with hdr := true, hdr_format := some "HDR10+", score := q.score + 16 }
  else if containsStr "hdr10" fl then
    { q with hdr := true, hdr_format := some "HDR10", score := q.score + 12 }
  else if containsStr "hlg" fl then
    { q with hdr := true, hdr_format := some "HLG", score := q.score + 10 }
  else if containsStr "hdr" fl then
    { q with hdr := true, hdr_format := some "HDR", score := q.score + 10 }
  else q

/-- Source/origin table (source lines 963–988): always evaluated on the
lowercased file name, whichever attribute path ran before it. -/
def sourceTag (fl : List Char) : Option (String × Nat) :=
  if containsStr "remux" fl then some ("Remux", 35)
  else if anyStr ["bluray", "blu-ray", "bdrip", "brrip"] fl then some ("BluRay", 30)
  else if anyStr ["web-dl", "webdl"] fl then some ("WEB-DL", 25)
  else if containsStr "webrip" fl then some ("WEBRip", 20)
  else if containsStr "hdtv" fl then some ("HDTV", 15)
  else if containsStr "dvdrip" fl then some ("DVDRip", 10)
  else none

def applySource (filename : String) (q : Quality) : Quality :=
  match sourceTag (lowerList filename.data) with
  | some (lab, pts) => { q with source := lab, score := q.score + pts }
  | none => q

/-- All scoring before the source block: probed path when the prober returned
attributes for the primary file, filename fallback otherwise
(source lines 736–961). -/
def branchQuality (filename : String) (mi : Option MediaInfo) (hd : Option String) : Quality :=
  match mi with
  | some m =>
    bitrateStep (hdrStepMI m.hdr hd (audioStepMI m.audio_codec (codecStepMI m.video_codec
      (resStepMI m.height
        { quality0 with
            data_source := "MediaInfo"
            width := m.width
            height := m.height
            bitrate := m.bitrate
            audio_channels := m.audio_channels }))))
  | none =>
    let fl := lowerList filename.data
    hdrStepFN fl (audioStepFN fl (codecStepFN fl (resStepFN fl quality0)))

/-- `get_quality_score` (source lines 718–990).  `mi` is the outcome of the
MediaInfo probe for the primary video file (`none`: prober unavailable,
failed, or no file), `hd` the detailed-HDR-format lookup outcome. -/
def get_quality_score (filename : String) (mi : Option MediaInfo) (hd : Option String) :
    Quality :=
  applySource filename (branchQuality filename mi hd)

example : (get_quality_score "The.Matrix.1999.1080p.BluRay.x264" none none).score = 125 := by
  decide

example : (get_quality_score "The.Matrix.1999.1080p.BluRay.x264" none none).source
    = "BluRay" := by decide

example :
    (get_quality_score "X.2160p.Remux.Atmos.DV.mkv"
      (some { video_codec := "HEVC", audio_codec := "DTS", width := 3840, height := 2160,
              bitrate := 45000000, audio_channels := 8, hdr := true })
      (some "Dolby Vision")).score = 100 + 20 + 8 + 18 + 20 + 35 := by decide

/-! ## `get_file_partial_hash` (source lines 549–577) -/

/-- `str(file_size).encode()`: the byte values of the decimal rendering. -/
def decimalSizeBytes (n : Nat) : List Nat := (toString n).data.map Char.toNat

/-- `get_file_partial_hash` (source lines 549–577).  The file system is
abstracted to the readable byte content of the file (`none` on any I/O
failure, which the bare `except` turns into a `None` result), and the MD5
digest to the function parameter `digest`: the claims concern which bytes
are digested.  `sample_size` is the Python keyword argument, `1024 * 1024`
at every call site. -/
def get_file_partial_hash {α : Type} (digest : List Nat → α) (sample_size : Nat)
    (content : Option (List Nat)) : Option α :=
  match content with
  | none => none
  | some bytes =>
    if bytes.length ≤ sample_size * 2 then some (digest bytes)
    else
      some (digest (bytes.take sample_size ++
        bytes.drop (bytes.length - sample_size) ++ decimalSizeBytes bytes.length))

/-! ## `find_duplicate_movies_enhanced` (source lines 580–673) -/

/-- The entry dictionary built for each movie folder (source lines 615–624).
`match_type` starts empty and is filled during grouping. -/
structure MEntry where
  path : String
  originalName : String
  year : Option String
  quality : Quality
  fileSize : Nat
  filePath : String
  fileHash : Option String
  matchType : List String
deriving DecidableEq

/-- One movie folder as observed on disk, abstracting the scan loop's I/O:
its largest video file's size and path, the partial-hash outcome, and the
prober outcome for the quality score.  Folders without any video file are
skipped by the scan loop and do not appear. -/
structure ScanItem where
  path : String
  folderName : String
  fileSize : Nat
  filePath : String
  fileHash : Option String
  mediaInfo : Option MediaInfo
  hdrDetail : Option String
deriving DecidableEq

/-- The title key (source lines 627–629): `normalized_title`, extended with
`"|year"` when a year was found. -/
def titleKeyOf (ti : TitleInfo) : String :=
  match ti.year with
  | some y => ti.normalized_title ++ "|" ++ y
  | none => ti.normalized_title

def keyOfName (name : String) : String := titleKeyOf (get_normalized_title name)

def mkEntry (it : ScanItem) : MEntry :=
  { path := it.path
    originalName := it.folderName
    year := (get_normalized_title it.folderName).year
    quality := get_quality_score it.folderName it.mediaInfo it.hdrDetail
    fileSize := it.fileSize
    filePath := it.filePath
    fileHash := it.fileHash
    matchType := [] }

/-- Appending to a Python dict-of-lists: extend the list of an existing key,
else append a new singleton binding at the end (dict preserves key
insertion order). -/
def addToLookup (lk : List (String × List MEntry)) (k : String) (e : MEntry) :
    List (String × List MEntry) :=
  match lk with
  | [] => [(k, [e])]
  | (k', es) :: rest =>
    if k' = k then (k', es ++ [e]) :: rest else (k', es) :: addToLookup rest k e

def lookupKey : List (String × List MEntry) → String → List MEntry
  | [], _ => []
  | (k', es) :: rest, k => if k' = k then es else lookupKey rest k

/-- Index the entries, in scan order, under an optional key. -/
def buildLookup (keyf : MEntry → Option String) (entries : List MEntry) :
    List (String × List MEntry) :=
  entries.foldl (fun acc e =>
    match keyf e with
    | some k => addToLookup acc k e
    | none => acc) []

/-- `title_lookup` built over the scan (source lines 626–633); every scanned
entry is indexed under its title key. -/
def buildTitleLookup (entries : List MEntry) : List (String × List MEntry) :=
  buildLookup (fun e => some (keyOfName e.originalName)) entries

/-- `hash_lookup` built over the scan (source lines 635–639): only entries
with a non-`None` hash are indexed. -/
def buildHashLookup (entries : List MEntry) : List (String × List MEntry) :=
  buildLookup (fun e => e.fileHash) entries

def tagExact (e : MEntry) : MEntry := { e with matchType := e.matchType ++ ["ExactHash"] }

/-- Pass 1 (source lines 647–653): every hash shared by more than one entry
yields a group whose members are tagged `ExactHash`. -/
def hashGroups (hl : List (String × List MEntry)) : List (List MEntry) :=
  (hl.filter (fun p => 1 < p.2.length)).map (fun p => p.2.map tagExact)

/-- The `processed_paths` set after pass 1. -/
def processedFromHash (hl : List (String × List MEntry)) : List String :=
  ((hl.filter (fun p => 1 < p.2.length)).map (fun p => p.2.map (fun e => e.path))).flatten

/-- `unprocessed` (source line 657). -/
def unsettledIn (proc : List String) (es : List MEntry) : List MEntry :=
  es.filter (fun e => !(proc.contains e.path))

/-- `avg_size` (source line 663), with Python float arithmetic modelled by
exact rationals. -/
def avgOf (unp : List MEntry) : ℚ :=
  (((unp.map (fun e => e.fileSize)).sum : Nat) : ℚ) / ((unp.length : Nat) : ℚ)

/-- `abs(entry['file_size'] - avg_size) / avg_size < 0.1` (source line 664). -/
def similarSize (avg : ℚ) (sz : Nat) : Bool := decide (|(sz : ℚ) - avg| / avg < 1 / 10)

/-- Tagging of one unprocessed member (source lines 659–665): `TitleMatch`
always, then `SimilarSize` when the size is within 10% of the mean. -/
def tagTitle (avg : ℚ) (e : MEntry) : MEntry :=
  let e1 := { e with matchType := e.matchType ++ ["TitleMatch"] }
  if similarSize avg e.fileSize then { e1 with matchType := e1.matchType ++ ["SimilarSize"] }
  else e1

/-- Pass 2 (source lines 655–667).  A key whose unprocessed members all have
size 0 makes `abs(...) / avg_size` raise `ZeroDivisionError`; the
exception escapes to the function's top-level handler, modelled by the
`none` result. -/
def titlePhase (proc : List String) : List (String × List MEntry) → Option (List (List MEntry))
  | [] => some []
  | (_, es) :: rest =>
    let unp := unsettledIn proc es
    if 1 < unp.length then
      if (unp.map (fun e => e.fileSize)).sum = 0 then none
      else
        match titlePhase proc rest with
        | some gs => some (unp.map (tagTitle (avgOf unp)) :: gs)
        | none => none
    else titlePhase proc rest

/-- `find_duplicate_movies_enhanced` (source lines 580–673) from the scanned
items onward: hash pass, then title pass; the top-level `except` of the
function turns a `ZeroDivisionError` of pass 2 into an empty result,
discarding the groups of pass 1 as well. -/
def find_duplicate_movies_enhanced (items : List ScanItem) : List (List MEntry) :=
  let entries := items.map mkEntry
  let hl := buildHashLookup entries
  let tl := buildTitleLookup entries
  match titlePhase (processedFromHash hl) tl with
  | none => []
  | some tg => hashGroups hl ++ tg

/-- `sorted(group, key=lambda x: x['quality']['score'], reverse=True)`
(source lines 697 and 2011): Python's sort is stable, so an element
is inserted before the first element whose score is at most its own. -/
def insertByScore (e : MEntry) : List MEntry → List MEntry
  | [] => [e]
  | x :: xs => if x.quality.score ≤ e.quality.score then e :: x :: xs else x :: insertByScore e xs

def sortGroupByScore : List MEntry → List MEntry
  | [] => []
  | e :: es => insertByScore e (sortGroupByScore es)

/-! ## Concrete directory snapshots used by witnesses and counterexamples -/

/-- A 1080p folder whose video file hashes to `"h1"`; quality score 80. -/
def itemB : ScanItem :=
  { path := "/movies/B", folderName := "B.Movie.2001.1080p", fileSize := 100,
    filePath := "/movies/B/film.mkv", fileHash := some "h1",
    mediaInfo := none, hdrDetail := none }

/-- A second folder with the identical content hash `"h1"`, a different title
key, a larger file and a lexically smaller name; quality score 80. -/
def itemA : ScanItem :=
  { path := "/movies/A", folderName := "A.Movie.2001.1080p", fileSize := 200,
    filePath := "/movies/A/film.mkv", fileHash := some "h1",
    mediaInfo := none, hdrDetail := none }

/-- Title twins (key `"same movie"`), no hashes, sizes 100 and 110. -/
def itemT1 : ScanItem :=
  { path := "/movies/T1", folderName := "Same.Movie.A", fileSize := 100,
    filePath := "/movies/T1/a.mkv", fileHash := none, mediaInfo := none, hdrDetail := none }

def itemT2 : ScanItem :=
  { path := "/movies/T2", folderName := "Same.Movie.B", fileSize := 110,
    filePath := "/movies/T2/b.mkv", fileHash := none, mediaInfo := none, hdrDetail := none }

/-- Title twins (key `"zero movie"`) whose video files are both empty. -/
def itemZ1 : ScanItem :=
  { path := "/movies/Z1", folderName := "Zero.Movie.A", fileSize := 0,
    filePath := "/movies/Z1/a.mkv", fileHash := none, mediaInfo := none, hdrDetail := none }

def itemZ2 : ScanItem :=
  { path := "/movies/Z2", folderName := "Zero.Movie.B", fileSize := 0,
    filePath := "/movies/Z2/b.mkv", fileHash := none, mediaInfo := none, hdrDetail := none }

example : find_duplicate_movies_enhanced [itemB, itemA] =
    [[tagExact (mkEntry itemB), tagExact (mkEntry itemA)]] := by decide

example : find_duplicate_movies_enhanced [itemZ1, itemZ2] = [] := by decide

example : (find_duplicate_movies_enhanced [itemT1, itemT2]).length = 1 := by decide

example : find_duplicate_movies_enhanced [itemB, itemA, itemZ1, itemZ2] = [] := by decide

/-! ## Lookup lemmas -/

theorem lookupKey_addToLookup (lk : List (String × List MEntry)) (k : String) (e : MEntry)
    (k' : String) :
    lookupKey (addToLookup lk k e) k' =
      if k = k' then lookupKey lk k' ++ [e] else lookupKey lk k' := by
  induction lk with
  | nil => by_cases h : k = k' <;> simp [addToLookup, lookupKey, h]
  | cons hd tl ih =>
    obtain ⟨k0, es0⟩ := hd
    by_cases h0 : k0 = k
    · subst h0
      by_cases h : k0 = k' <;> simp [addToLookup, lookupKey, h]
    · by_cases h : k0 = k'
      · subst h
        have hkk : ¬(k = k0) := fun hh => h0 hh.symm
        simp [addToLookup, lookupKey, h0, hkk]
      · simp [addToLookup, lookupKey, h0, h, ih]

theorem lookupKey_buildLookup (keyf : MEntry → Option String) (entries : List MEntry)
    (k : String) :
    lookupKey (buildLookup keyf entries) k = entries.filter (fun e => keyf e == some k) := by
  suffices h : ∀ acc, lookupKey (List.foldl (fun acc e =>
      match keyf e with
      | some k0 => addToLookup acc k0 e
      | none => acc) acc entries) k
      = lookupKey acc k ++ entries.filter (fun e => keyf e == some k) by
    simpa [buildLookup, lookupKey] using h []
  induction entries with
  | nil => intro acc; simp
  | cons e tl ih =>
    intro acc
    simp only [List.foldl_cons]
    cases hk : keyf e with
    | none =>
      simp only [hk]
      rw [ih acc]
      simp [hk]
    | some k0 =>
      simp only [hk]
      rw [ih (addToLookup acc k0 e), lookupKey_addToLookup]
      by_cases hkk : k0 = k
      · subst hkk
        simp [hk, List.filter_cons, List.append_assoc]
      · have : (some k0 == some k) = false := by simpa using hkk
        simp [hk, hkk, List.filter_cons, this]

theorem lookup_pair_mem (lk : List (String × List MEntry)) (k : String)
    (h : lookupKey lk k ≠ []) : (k, lookupKey lk k) ∈ lk := by
  induction lk with
  | nil => simp [lookupKey] at h
  | cons hd tl ih =>
    obtain ⟨k0, es⟩ := hd
    by_cases h0 : k0 = k
    · subst h0; simp [lookupKey]
    · simp only [lookupKey, if_neg h0] at h ⊢
      exact List.mem_cons_of_mem _ (ih h)

theorem mem_of_two {α : Type} (a b : α) (l : List α) (ha : a ∈ l) (hb : b ∈ l)
    (hab : a ≠ b) : 2 ≤ l.length := by
  cases l with
  | nil => simp at ha
  | cons x tl =>
    cases tl with
    | nil =>
      simp at ha hb
      exact absurd (ha.trans hb.symm) hab
    | cons y t => simp only [List.length_cons]; omega

theorem hashGroup_mem (hl : List (String × List MEntry)) (k : String) (es : List MEntry)
    (hmem : (k, es) ∈ hl) (hlen : 1 < es.length) :
    es.map tagExact ∈ hashGroups hl := by
  unfold hashGroups
  exact List.mem_map_of_mem _ (List.mem_filter.mpr ⟨hmem, by simpa using hlen⟩)

/-! ## Pass-2 lemmas -/

theorem titlePhase_isSome (proc : List String) (tl : List (String × List MEntry))
    (H : ∀ p ∈ tl, 1 < (unsettledIn proc p.2).length →
      ((unsettledIn proc p.2).map (fun e => e.fileSize)).sum ≠ 0) :
    ∃ gs, titlePhase proc tl = some gs := by
  induction tl with
  | nil => exact ⟨[], rfl⟩
  | cons hd tl ih =>
    obtain ⟨k, es⟩ := hd
    obtain ⟨gs, hgs⟩ := ih fun p hp => H p (List.mem_cons_of_mem _ hp)
    by_cases hq : 1 < (unsettledIn proc es).length
    · have hs := H (k, es) (List.mem_cons_self _ _) hq
      refine ⟨(unsettledIn proc es).map (tagTitle (avgOf (unsettledIn proc es))) :: gs, ?_⟩
      unfold titlePhase
      rw [if_pos hq, if_neg hs, hgs]
    · exact ⟨gs, by unfold titlePhase; rw [if_neg hq]; exact hgs⟩

theorem titlePhase_none_of_zero (proc : List String) (tl : List (String × List MEntry))
    (k : String) (es : List MEntry)
    (hmem : (k, es) ∈ tl) (hq : 1 < (unsettledIn proc es).length)
    (hz : ((unsettledIn proc es).map (fun e => e.fileSize)).sum = 0) :
    titlePhase proc tl = none := by
  induction tl with
  | nil => simp at hmem
  | cons hd tl ih =>
    obtain ⟨k0, es0⟩ := hd
    rcases List.mem_cons.mp hmem with heq | hmem'
    · obtain ⟨hk, he⟩ := Prod.mk.injEq .. ▸ heq
      subst hk; subst he
      unfold titlePhase
      rw [if_pos hq, if_pos hz]
    · have hrec := ih hmem'
      unfold titlePhase
      by_cases hq0 : 1 < (unsettledIn proc es0).length
      · rw [if_pos hq0]
        by_cases hz0 : ((unsettledIn proc es0).map (fun e => e.fileSize)).sum = 0
        · rw [if_pos hz0]
        · rw [if_neg hz0, hrec]
      · rw [if_neg hq0]; exact hrec

theorem titlePhase_group_mem (proc : List String) (tl : List (String × List MEntry))
    (gs : List (List MEntry)) (k : String) (es : List MEntry)
    (htp : titlePhase proc tl = some gs) (hmem : (k, es) ∈ tl)
    (hq : 1 < (unsettledIn proc es).length) :
    (unsettledIn proc es).map (tagTitle (avgOf (unsettledIn proc es))) ∈ gs := by
  induction tl generalizing gs with
  | nil => simp at hmem
  | cons hd tl ih =>
    obtain ⟨k0, es0⟩ := hd
    unfold titlePhase at htp
    rcases List.mem_cons.mp hmem with heq | hmem'
    · obtain ⟨hk, he⟩ := Prod.mk.injEq .. ▸ heq
      subst hk; subst he
      rw [if_pos hq] at htp
      by_cases hz : ((unsettledIn proc es).map (fun e => e.fileSize)).sum = 0
      · rw [if_pos hz] at htp; cases htp
      · rw [if_neg hz] at htp
        cases hrec : titlePhase proc tl with
        | none => rw [hrec] at htp; cases htp
        | some gs' =>
          rw [hrec] at htp
          injection htp with hgs
          subst hgs
          exact List.mem_cons_self _ _
    · by_cases hq0 : 1 < (unsettledIn proc es0).length
      · rw [if_pos hq0] at htp
        by_cases hz : ((unsettledIn proc es0).map (fun e => e.fileSize)).sum = 0
        · rw [if_pos hz] at htp; cases htp
        · rw [if_neg hz] at htp
          cases hrec : titlePhase proc tl with
          | none => rw [hrec] at htp; cases htp
          | some gs' =>
            rw [hrec] at htp
            injection htp with hgs
            subst hgs
            exact List.mem_cons_of_mem _ (ih gs' hrec hmem')
      · rw [if_neg hq0] at htp
        exact ih gs htp hmem'

theorem titlePhase_groups_two_le (proc : List String) (tl : List (String × List MEntry))
    (gs : List (List MEntry)) (htp : titlePhase proc tl = some gs) :
    ∀ g ∈ gs, 2 ≤ g.length := by
  induction tl generalizing gs with
  | nil =>
    unfold titlePhase at htp
    injection htp with h
    subst h
    simp
  | cons hd tl ih =>
    obtain ⟨k0, es0⟩ := hd
    unfold titlePhase at htp
    by_cases hq : 1 < (unsettledIn proc es0).length
    · rw [if_pos hq] at htp
      by_cases hz : ((unsettledIn proc es0).map (fun e => e.fileSize)).sum = 0
      · rw [if_pos hz] at htp; cases htp
      · rw [if_neg hz] at htp
        cases hrec : titlePhase proc tl with
        | none => rw [hrec] at htp; cases htp
        | some gs' =>
          rw [hrec] at htp
          injection htp with hgs
          subst hgs
          intro g hg
          rcases List.mem_cons.mp hg with rfl | hg'
          · rw [List.length_map]; omega
          · exact ih gs' hrec g hg'
    · rw [if_neg hq] at htp
      exact ih gs htp

theorem hashGroups_two_le (hl : List (String × List MEntry)) :
    ∀ g ∈ hashGroups hl, 2 ≤ g.length := by
  intro g hg
  unfold hashGroups at hg
  rcases List.mem_map.mp hg with ⟨p, hp, rfl⟩
  have h2 := (List.mem_filter.mp hp).2
  simp only [decide_eq_true_eq] at h2
  rw [List.length_map]
  omega

/-- Entries handed to the grouping passes carry an empty `match_type`
(source line 623). -/
theorem matchType_of_scanned (items : List ScanItem) (e : MEntry)
    (he : e ∈ items.map mkEntry) : e.matchType = [] := by
  rcases List.mem_map.mp he with ⟨it, _, rfl⟩
  rfl

/-- Every title key whose set of unprocessed entries the title pass will
visit has a nonzero total size — the proviso under which pass 2 does not
raise `ZeroDivisionError` (see the divide-by-zero claim). -/
def allTitleGroupsSized (items : List ScanItem) : Prop :=
  ∀ p ∈ buildTitleLookup (items.map mkEntry),
    1 < (unsettledIn (processedFromHash (buildHashLookup (items.map mkEntry))) p.2).length →
    ((unsettledIn (processedFromHash (buildHashLookup (items.map mkEntry))) p.2).map
      (fun e => e.fileSize)).sum ≠ 0

instance (items : List ScanItem) : Decidable (allTitleGroupsSized items) := by
  unfold allTitleGroupsSized; infer_instance

/-- C8: `detectDuplicates` never emits a group of size 1 — every group in the
returned list, hash-based or title-based, has at least two members. -/
theorem C8_no_singleton_groups (items : List ScanItem) (g : List MEntry)
    (hg : g ∈ find_duplicate_movies_enhanced items) : 2 ≤ g.length := by
  simp only [find_duplicate_movies_enhanced] at hg
  cases htp : titlePhase (processedFromHash (buildHashLookup (items.map mkEntry)))
      (buildTitleLookup (items.map mkEntry)) with
  | none => rw [htp] at hg; simp at hg
  | some tg =>
    rw [htp] at hg
    rcases List.mem_append.mp hg with h | h
    · exact hashGroups_two_le _ g h
    · exact titlePhase_groups_two_le _ _ _ htp g h

theorem C8_witness :
    2 ≤ ([tagExact (mkEntry itemB), tagExact (mkEntry itemA)] : List MEntry).length :=
  C8_no_singleton_groups [itemB, itemA] _ (by decide)

/-- C9: a title key all of whose unprocessed entries have file size 0 makes
the similar-size check divide by zero; the exception reaches only the
function's top-level handler, so the whole scan returns the empty list,
discarding every group already found. -/
theorem C9_zero_mean_returns_empty (items : List ScanItem) (k : String)
    (hq : 1 < (unsettledIn (processedFromHash (buildHashLookup (items.map mkEntry)))
      (lookupKey (buildTitleLookup (items.map mkEntry)) k)).length)
    (hz : ((unsettledIn (processedFromHash (buildHashLookup (items.map mkEntry)))
      (lookupKey (buildTitleLookup (items.map mkEntry)) k)).map (fun e => e.fileSize)).sum
      = 0) :
    find_duplicate_movies_enhanced items = [] := by
  have hne : lookupKey (buildTitleLookup (items.map mkEntry)) k ≠ [] := by
    intro h
    rw [h] at hq
    simp [unsettledIn] at hq
  have hpm := lookup_pair_mem (buildTitleLookup (items.map mkEntry)) k hne
  have hnone := titlePhase_none_of_zero
    (processedFromHash (buildHashLookup (items.map mkEntry))) _ _ _ hpm hq hz
  simp only [find_duplicate_movies_enhanced]
  rw [hnone]

/-- The zero-size pair aborts a scan that had already found the exact-hash
pair `itemB`/`itemA`. -/
theorem C9_witness : find_duplicate_movies_enhanced [itemB, itemA, itemZ1, itemZ2] = [] :=
  C9_zero_mean_returns_empty [itemB, itemA, itemZ1, itemZ2] "zero movie"
    (by decide) (by decide)

/-- C4 (amended): provided no title group has a zero mean size, any two
distinct entries whose fingerprints are both present and equal land in
one emitted group and both carry the `ExactHash` tag, whatever their
names or title keys. -/
theorem C4_exact_hash_same_group (items : List ScanItem) (x y : ScanItem) (h : String)
    (hx : x ∈ items) (hy : y ∈ items) (hxy : mkEntry x ≠ mkEntry y)
    (hhx : x.fileHash = some h) (hhy : y.fileHash = some h)
    (hsz : allTitleGroupsSized items) :
    ∃ g, g ∈ find_duplicate_movies_enhanced items ∧
      tagExact (mkEntry x) ∈ g ∧ tagExact (mkEntry y) ∈ g ∧
      "ExactHash" ∈ (tagExact (mkEntry x)).matchType ∧
      "ExactHash" ∈ (tagExact (mkEntry y)).matchType := by
  have hlk : lookupKey (buildHashLookup (items.map mkEntry)) h =
      (items.map mkEntry).filter (fun e => e.fileHash == some h) := by
    unfold buildHashLookup
    exact lookupKey_buildLookup _ _ _
  have hxmem : mkEntry x ∈ lookupKey (buildHashLookup (items.map mkEntry)) h := by
    rw [hlk]
    refine List.mem_filter.mpr ⟨List.mem_map_of_mem _ hx, ?_⟩
    have : (mkEntry x).fileHash = some h := hhx
    simp [this]
  have hymem : mkEntry y ∈ lookupKey (buildHashLookup (items.map mkEntry)) h := by
    rw [hlk]
    refine List.mem_filter.mpr ⟨List.mem_map_of_mem _ hy, ?_⟩
    have : (mkEntry y).fileHash = some h := hhy
    simp [this]
  have hne : lookupKey (buildHashLookup (items.map mkEntry)) h ≠ [] := by
    intro hemp; rw [hemp] at hxmem; simp at hxmem
  have hpm := lookup_pair_mem (buildHashLookup (items.map mkEntry)) h hne
  have hlen : 1 < (lookupKey (buildHashLookup (items.map mkEntry)) h).length := by
    have := mem_of_two _ _ _ hxmem hymem hxy
    omega
  have hg := hashGroup_mem (buildHashLookup (items.map mkEntry)) h _ hpm hlen
  obtain ⟨gs, hgs⟩ := titlePhase_isSome
    (processedFromHash (buildHashLookup (items.map mkEntry)))
    (buildTitleLookup (items.map mkEntry)) hsz
  refine ⟨(lookupKey (buildHashLookup (items.map mkEntry)) h).map tagExact, ?_, ?_, ?_, ?_, ?_⟩
  · simp only [find_duplicate_movies_enhanced]
    rw [hgs]
    exact List.mem_append_left _ hg
  · exact List.mem_map_of_mem _ hxmem
  · exact List.mem_map_of_mem _ hymem
  · simp [tagExact]
  · simp [tagExact]

theorem C4_witness :
    ∃ g, g ∈ find_duplicate_movies_enhanced [itemB, itemA] ∧
      tagExact (mkEntry itemB) ∈ g ∧ tagExact (mkEntry itemA) ∈ g ∧
      "ExactHash" ∈ (tagExact (mkEntry itemB)).matchType ∧
      "ExactHash" ∈ (tagExact (mkEntry itemA)).matchType :=
  C4_exact_hash_same_group [itemB, itemA] itemB itemA "h1"
    (by decide) (by decide) (by decide) rfl rfl (by decide)

/-- C4 as stated is violated when any other title group has zero mean size:
the two entries share the fingerprint `"h1"` yet no group at all is
emitted. -/
theorem C4_counterexample :
    find_duplicate_movies_enhanced [itemB, itemA, itemZ1, itemZ2] = [] ∧
    itemB.fileHash = some "h1" ∧ itemA.fileHash = some "h1" ∧
    mkEntry itemB ≠ mkEntry itemA := by
  refine ⟨by decide, rfl, rfl, by decide⟩

/-- C5 (amended): provided no title group has a zero mean size, every title
key with more than one unsettled entry yields an emitted group in which
every member is tagged `TitleMatch`, and a member is tagged `SimilarSize`
exactly when its size is within 10% of the group's arithmetic mean. -/
theorem C5_title_match_similar_size (items : List ScanItem) (k : String)
    (hsz : allTitleGroupsSized items)
    (hq : 1 < (unsettledIn (processedFromHash (buildHashLookup (items.map mkEntry)))
      (lookupKey (buildTitleLookup (items.map mkEntry)) k)).length) :
    (unsettledIn (processedFromHash (buildHashLookup (items.map mkEntry)))
        (lookupKey (buildTitleLookup (items.map mkEntry)) k)).map
        (tagTitle (avgOf (unsettledIn (processedFromHash (buildHashLookup (items.map mkEntry)))
          (lookupKey (buildTitleLookup (items.map mkEntry)) k))))
      ∈ find_duplicate_movies_enhanced items ∧
    ∀ e ∈ unsettledIn (processedFromHash (buildHashLookup (items.map mkEntry)))
        (lookupKey (buildTitleLookup (items.map mkEntry)) k),
      "TitleMatch" ∈ (tagTitle (avgOf (unsettledIn (processedFromHash
          (buildHashLookup (items.map mkEntry)))
          (lookupKey (buildTitleLookup (items.map mkEntry)) k))) e).matchType ∧
      ("SimilarSize" ∈ (tagTitle (avgOf (unsettledIn (processedFromHash
          (buildHashLookup (items.map mkEntry)))
          (lookupKey (buildTitleLookup (items.map mkEntry)) k))) e).matchType ↔
        |(e.fileSize : ℚ) - avgOf (unsettledIn (processedFromHash
          (buildHashLookup (items.map mkEntry)))
          (lookupKey (buildTitleLookup (items.map mkEntry)) k))| /
          avgOf (unsettledIn (processedFromHash (buildHashLookup (items.map mkEntry)))
          (lookupKey (buildTitleLookup (items.map mkEntry)) k)) < 1 / 10) := by
  have hne : lookupKey (buildTitleLookup (items.map mkEntry)) k ≠ [] := by
    intro hemp; rw [hemp] at hq; simp [unsettledIn] at hq
  have hpm := lookup_pair_mem (buildTitleLookup (items.map mkEntry)) k hne
  obtain ⟨gs, hgs⟩ := titlePhase_isSome
    (processedFromHash (buildHashLookup (items.map mkEntry)))
    (buildTitleLookup (items.map mkEntry)) hsz
  constructor
  · have hmem := titlePhase_group_mem _ _ _ _ _ hgs hpm hq
    simp only [find_duplicate_movies_enhanced]
    rw [hgs]
    exact List.mem_append_right _ hmem
  · intro e he
    have heTop : e ∈ items.map mkEntry := by
      have h1 : e ∈ lookupKey (buildTitleLookup (items.map mkEntry)) k :=
        List.mem_of_mem_filter he
      have hlk : lookupKey (buildTitleLookup (items.map mkEntry)) k =
          (items.map mkEntry).filter
            (fun e => some (keyOfName e.originalName) == some k) := by
        unfold buildTitleLookup
        exact lookupKey_buildLookup _ _ _
      rw [hlk] at h1
      exact List.mem_of_mem_filter h1
    have hmt : e.matchType = [] := matchType_of_scanned _ _ heTop
    constructor
    · by_cases hsim : similarSize (avgOf (unsettledIn (processedFromHash
          (buildHashLookup (items.map mkEntry)))
          (lookupKey (buildTitleLookup (items.map mkEntry)) k))) e.fileSize <;>
        simp [tagTitle, hsim, hmt]
    · have hmemIff : "SimilarSize" ∈ (tagTitle (avgOf (unsettledIn (processedFromHash
          (buildHashLookup (items.map mkEntry)))
          (lookupKey (buildTitleLookup (items.map mkEntry)) k))) e).matchType ↔
          similarSize (avgOf (unsettledIn (processedFromHash
            (buildHashLookup (items.map mkEntry)))
            (lookupKey (buildTitleLookup (items.map mkEntry)) k))) e.fileSize = true := by
        by_cases hsim : similarSize (avgOf (unsettledIn (processedFromHash
            (buildHashLookup (items.map mkEntry)))
            (lookupKey (buildTitleLookup (items.map mkEntry)) k))) e.fileSize <;>
          simp [tagTitle, hsim, hmt]
      rw [hmemIff, similarSize]
      exact decide_eq_true_iff

theorem C5_witness :
    (unsettledIn (processedFromHash (buildHashLookup ([itemT1, itemT2].map mkEntry)))
        (lookupKey (buildTitleLookup ([itemT1, itemT2].map mkEntry)) "same movie")).map
        (tagTitle (avgOf (unsettledIn (processedFromHash
          (buildHashLookup ([itemT1, itemT2].map mkEntry)))
          (lookupKey (buildTitleLookup ([itemT1, itemT2].map mkEntry)) "same movie"))))
      ∈ find_duplicate_movies_enhanced [itemT1, itemT2] :=
  (C5_title_match_similar_size [itemT1, itemT2] "same movie" (by decide) (by decide)).1

/-- C5 as stated is violated by an all-zero-size title group: the key
`"zero movie"` has two unsettled entries, yet the scan emits nothing, so
no entry is tagged `TitleMatch`. -/
theorem C5_counterexample :
    find_duplicate_movies_enhanced [itemZ1, itemZ2] = [] ∧
    1 < (unsettledIn (processedFromHash (buildHashLookup ([itemZ1, itemZ2].map mkEntry)))
      (lookupKey (buildTitleLookup ([itemZ1, itemZ2].map mkEntry)) "zero movie")).length := by
  exact ⟨by decide, by decide⟩

/-! ## Ranking lemmas (stable sort by score, descending) -/

theorem mem_insertByScore (e : MEntry) (l : List MEntry) (y : MEntry) :
    y ∈ insertByScore e l ↔ y = e ∨ y ∈ l := by
  induction l with
  | nil => simp [insertByScore]
  | cons x xs ih =>
    unfold insertByScore
    by_cases h : x.quality.score ≤ e.quality.score
    · rw [if_pos h]; simp [List.mem_cons]
    · rw [if_neg h]; simp [List.mem_cons, ih]; tauto

theorem insertByScore_perm (e : MEntry) (l : List MEntry) :
    (insertByScore e l).Perm (e :: l) := by
  induction l with
  | nil => exact List.Perm.refl _
  | cons x xs ih =>
    unfold insertByScore
    by_cases h : x.quality.score ≤ e.quality.score
    · rw [if_pos h]
    · rw [if_neg h]
      exact (ih.cons x).trans (List.Perm.swap e x xs)

theorem sortGroupByScore_perm (g : List MEntry) : (sortGroupByScore g).Perm g := by
  induction g with
  | nil => exact List.Perm.refl _
  | cons e es ih =>
    exact (insertByScore_perm e (sortGroupByScore es)).trans (ih.cons e)

theorem insertByScore_pairwise (e : MEntry) (l : List MEntry)
    (h : List.Pairwise (fun a b => b.quality.score ≤ a.quality.score) l) :
    List.Pairwise (fun a b => b.quality.score ≤ a.quality.score) (insertByScore e l) := by
  induction l with
  | nil => simp [insertByScore]
  | cons x xs ih =>
    rcases List.pairwise_cons.mp h with ⟨hx, hxs⟩
    unfold insertByScore
    by_cases hc : x.quality.score ≤ e.quality.score
    · rw [if_pos hc]
      refine List.pairwise_cons.mpr ⟨?_, h⟩
      intro y hy
      rcases List.mem_cons.mp hy with rfl | hy'
      · exact hc
      · exact le_trans (hx y hy') hc
    · rw [if_neg hc]
      refine List.pairwise_cons.mpr ⟨?_, ih hxs⟩
      intro y hy
      rcases (mem_insertByScore _ _ _).mp hy with rfl | hy'
      · omega
      · exact hx y hy'

theorem sortGroupByScore_pairwise (g : List MEntry) :
    List.Pairwise (fun a b => b.quality.score ≤ a.quality.score) (sortGroupByScore g) := by
  induction g with
  | nil => simp [sortGroupByScore]
  | cons e es ih => exact insertByScore_pairwise e _ ih

theorem filter_insertByScore (e : MEntry) (l : List MEntry) (s : Nat) :
    (insertByScore e l).filter (fun x => x.quality.score == s) =
      if e.quality.score == s
      then e :: l.filter (fun x => x.quality.score == s)
      else l.filter (fun x => x.quality.score == s) := by
  induction l with
  | nil =>
    by_cases h : (e.quality.score == s) = true <;>
      simp [insertByScore, List.filter_cons, h]
  | cons x xs ih =>
    unfold insertByScore
    by_cases hc : x.quality.score ≤ e.quality.score
    · rw [if_pos hc]
      by_cases he : (e.quality.score == s) = true <;> simp [List.filter_cons, he]
    · rw [if_neg hc]
      by_cases he : (e.quality.score == s) = true
      · have hes : e.quality.score = s := by simpa using he
        have hxs : (x.quality.score == s) = false := by
          have hne : x.quality.score ≠ s := by omega
          simpa using hne
        simp [List.filter_cons, hxs, ih, he]
      · simp [List.filter_cons, ih, he]

theorem sortGroupByScore_filter (g : List MEntry) (s : Nat) :
    (sortGroupByScore g).filter (fun x => x.quality.score == s) =
      g.filter (fun x => x.quality.score == s) := by
  induction g with
  | nil => rfl
  | cons e es ih =>
    show (insertByScore e (sortGroupByScore es)).filter _ = _
    rw [filter_insertByScore, ih]
    by_cases he : (e.quality.score == s) = true <;> simp [List.filter_cons, he]

/-- C1 (amended): every detector group is ranked by `quality.score`
descending only; the ranking is a permutation of the group, and entries
of equal score keep their scan order (stability, expressed by filter
invariance) — no file-size or raw-name tie-break is applied.  Determinism
over a fixed snapshot holds because the ranking is a pure function. -/
theorem C1_rank_score_desc_stable (items : List ScanItem) (g : List MEntry)
    (_hg : g ∈ find_duplicate_movies_enhanced items) :
    List.Pairwise (fun a b => b.quality.score ≤ a.quality.score) (sortGroupByScore g) ∧
    (sortGroupByScore g).Perm g ∧
    ∀ s, (sortGroupByScore g).filter (fun x => x.quality.score == s) =
      g.filter (fun x => x.quality.score == s) :=
  ⟨sortGroupByScore_pairwise g, sortGroupByScore_perm g, fun s => sortGroupByScore_filter g s⟩

theorem C1_witness :
    List.Pairwise (fun a b => b.quality.score ≤ a.quality.score)
      (sortGroupByScore [tagExact (mkEntry itemB), tagExact (mkEntry itemA)]) ∧
    (sortGroupByScore [tagExact (mkEntry itemB), tagExact (mkEntry itemA)]).Perm
      [tagExact (mkEntry itemB), tagExact (mkEntry itemA)] ∧
    ∀ s, (sortGroupByScore [tagExact (mkEntry itemB), tagExact (mkEntry itemA)]).filter
        (fun x => x.quality.score == s) =
      ([tagExact (mkEntry itemB), tagExact (mkEntry itemA)]).filter
        (fun x => x.quality.score == s) :=
  C1_rank_score_desc_stable [itemB, itemA] _ (by decide)

/-- C1 as stated is violated: the detector emits the group
`[itemB, itemA]` (scan order), the two entries tie on score, `itemA` has
the larger file and the lexically smaller raw name, yet the ranking keeps
`itemB` first. -/
theorem C1_counterexample :
    find_duplicate_movies_enhanced [itemB, itemA] =
      [[tagExact (mkEntry itemB), tagExact (mkEntry itemA)]] ∧
    (mkEntry itemB).quality.score = (mkEntry itemA).quality.score ∧
    (mkEntry itemB).fileSize < (mkEntry itemA).fileSize ∧
    (mkEntry itemA).originalName.data < (mkEntry itemB).originalName.data ∧
    sortGroupByScore [tagExact (mkEntry itemB), tagExact (mkEntry itemA)] =
      [tagExact (mkEntry itemB), tagExact (mkEntry itemA)] :=
  ⟨by decide, by decide, by decide, by decide, by decide⟩

/-- C7: the fingerprint digests the entire content when the size is at most
twice the sample threshold, digests head chunk ++ tail chunk ++ decimal
size string for larger files, and yields `none` on I/O failure. -/
theorem C7_partial_hash_spec {α : Type} (digest : List Nat → α) (s : Nat)
    (content : List Nat) :
    get_file_partial_hash digest s none = none ∧
    (content.length ≤ 2 * s →
      get_file_partial_hash digest s (some content) = some (digest content)) ∧
    (2 * s < content.length →
      get_file_partial_hash digest s (some content) =
        some (digest (content.take s ++ content.drop (content.length - s) ++
          decimalSizeBytes content.length))) := by
  refine ⟨rfl, ?_, ?_⟩
  · intro h
    have hcond : content.length ≤ s * 2 := by omega
    simp [get_file_partial_hash, hcond]
  · intro h
    have hcond : ¬content.length ≤ s * 2 := by omega
    simp [get_file_partial_hash, hcond]

theorem C7_witness :
    get_file_partial_hash List.length 1 (some [5, 6, 7]) =
      some (([5, 6, 7].take 1 ++ [5, 6, 7].drop ([5, 6, 7].length - 1) ++
        decimalSizeBytes [5, 6, 7].length).length) ∧
    get_file_partial_hash List.length 1 (some [9]) = some ([9].length) ∧
    get_file_partial_hash List.length 1 (none : Option (List Nat)) = none :=
  ⟨(C7_partial_hash_spec List.length 1 [5, 6, 7]).2.2 (by decide),
   (C7_partial_hash_spec List.length 1 [9]).2.1 (by decide),
   (C7_partial_hash_spec List.length 1 []).1⟩

/-! ## Episode-parser lemmas -/

/-- The second optional episode group of pattern 1 cannot match when the
first one did not: both have the identical pattern at the same position. -/
theorem p1After_g4_none (rest : List Char) (sea ep : Nat) (g4 g5 : Option Nat)
    (r : List Char) (h : p1After rest = some (sea, ep, g4, g5, r)) (hg4 : g4 = none) :
    g5 = none := by
  cases rest with
  | nil => simp [p1After] at h
  | cons c cs =>
    simp only [p1After] at h
    repeat split at h
    all_goals simp_all

theorem p1Scan_g4_none (rest pre : List Char) (g1 : List Char) (sea ep : Nat)
    (g4 g5 : Option Nat) (r : List Char)
    (h : p1Scan pre rest = some (g1, sea, ep, g4, g5, r)) (hg4 : g4 = none) :
    g5 = none := by
  induction rest generalizing pre with
  | nil => simp [p1Scan] at h
  | cons c cs ih =>
    simp only [p1Scan] at h
    cases hp : p1After cs with
    | some res =>
      rw [hp] at h
      obtain ⟨sea', ep', g4', g5', r'⟩ := res
      simp only [Option.some.injEq, Prod.mk.injEq] at h
      obtain ⟨-, -, -, hg4', hg5', -⟩ := h
      exact hg5' ▸ p1After_g4_none cs sea' ep' g4' g5' r' hp (hg4' ▸ hg4)
    | none =>
      rw [hp] at h
      exact ih _ h

theorem get_episode_info_episodes_le (name : String) :
    (get_episode_info name).episodes.length ≤ 3 := by
  simp only [get_episode_info]
  cases h1 : p1Scan [] (stemChars name.data) with
  | some res =>
    obtain ⟨g1, sea, ep, g4, g5, r⟩ := res
    cases g4 <;> cases g5 <;> simp
  | none =>
    cases h2 : p2Scan [] (stemChars name.data) with
    | some res => obtain ⟨g1, sea, ep⟩ := res; simp
    | none =>
      cases h3 : p3Scan [] (stemChars name.data) with
      | some res => obtain ⟨g1, sea, ep⟩ := res; simp
      | none => simp [emptyEpisodeInfo]

theorem get_episode_info_multi_iff (name : String) :
    (get_episode_info name).is_multi_episode = true ↔
      2 ≤ (get_episode_info name).episodes.length := by
  simp only [get_episode_info]
  cases h1 : p1Scan [] (stemChars name.data) with
  | some res =>
    obtain ⟨g1, sea, ep, g4, g5, r⟩ := res
    cases hg4 : g4 with
    | some e4 => cases g5 <;> simp
    | none =>
      rw [hg4] at h1
      have hg5 := p1Scan_g4_none _ _ _ _ _ _ _ _ h1 rfl
      subst hg5
      simp
  | none =>
    cases h2 : p2Scan [] (stemChars name.data) with
    | some res => obtain ⟨g1, sea, ep⟩ := res; simp [emptyEpisodeInfo]
    | none =>
      cases h3 : p3Scan [] (stemChars name.data) with
      | some res => obtain ⟨g1, sea, ep⟩ := res; simp [emptyEpisodeInfo]
      | none => simp [emptyEpisodeInfo]

/-- C3 (amended): the `S<season>E<episode>` family collects at most two
additional `E<n>`/`-<n>` suffixes (never more than three episodes in
total), the multi-episode flag is set exactly when at least two episodes
were collected, and the two concrete examples parse as specified. -/
theorem C3_episode_parsing :
    get_episode_info "Show.Name.S02E05.mkv" =
      { season := some 2, episode := some 5, episodes := [5],
        show_title := some "Show Name", episode_title := none,
        is_multi_episode := false } ∧
    (get_episode_info "Show.Name.S02E05E06.mkv").show_title = some "Show Name" ∧
    (get_episode_info "Show.Name.S02E05E06.mkv").season = some 2 ∧
    (get_episode_info "Show.Name.S02E05E06.mkv").episodes = [5, 6] ∧
    (get_episode_info "Show.Name.S02E05E06.mkv").is_multi_episode = true ∧
    (∀ name, (get_episode_info name).episodes.length ≤ 3) ∧
    (∀ name, (get_episode_info name).is_multi_episode = true ↔
      2 ≤ (get_episode_info name).episodes.length) :=
  ⟨by decide, by decide, by decide, by decide, by decide,
   get_episode_info_episodes_le, get_episode_info_multi_iff⟩

theorem C3_witness :
    (get_episode_info "A.S03E07-08.mkv").is_multi_episode = true ↔
      2 ≤ (get_episode_info "A.S03E07-08.mkv").episodes.length :=
  C3_episode_parsing.2.2.2.2.2.2 "A.S03E07-08.mkv"

/-- C3 as stated is violated for three or more additional suffixes: in
`S01E01E02E03E04` the suffix `E04` is not collected into `episodes`; it
is left in the trailing text and surfaces as the episode title. -/
theorem C3_counterexample :
    (get_episode_info "Show.S01E01E02E03E04.mkv").episodes = [1, 2, 3] ∧
    4 ∉ (get_episode_info "Show.S01E01E02E03E04.mkv").episodes ∧
    (get_episode_info "Show.S01E01E02E03E04.mkv").episode_title = some "E04" :=
  ⟨by decide, by decide, by decide⟩

/-! ## Source-block independence lemmas -/

theorem resStepMI_source (h : Nat) (q : Quality) : (resStepMI h q).source = q.source := by
  unfold resStepMI; split_ifs <;> rfl

theorem codecStepMI_source (vc : String) (q : Quality) :
    (codecStepMI vc q).source = q.source := by
  unfold codecStepMI; split_ifs <;> rfl

theorem applyAudioTable_source (table : List ((List Char → Bool) × String × Nat))
    (v : List Char) (q : Quality) : (applyAudioTable v table q).source = q.source := by
  induction table generalizing q with
  | nil => rfl
  | cons hd rest ih =>
    obtain ⟨t, n, p⟩ := hd
    unfold applyAudioTable
    split
    · rfl
    · exact ih q

theorem audioStepMI_source (ac : String) (q : Quality) :
    (audioStepMI ac q).source = q.source := by
  unfold audioStepMI
  split
  · rfl
  · exact applyAudioTable_source _ _ _

theorem hdrStepMI_source (b : Bool) (hd : Option String) (q : Quality) :
    (hdrStepMI b hd q).source = q.source := by
  cases hd <;> unfold hdrStepMI <;> split_ifs <;> rfl

theorem bitrateStep_source (q : Quality) : (bitrateStep q).source = q.source := by
  unfold bitrateStep; split_ifs <;> rfl

theorem resStepFN_source (fl : List Char) (q : Quality) :
    (resStepFN fl q).source = q.source := by
  unfold resStepFN; split_ifs <;> rfl

theorem codecStepFN_source (fl : List Char) (q : Quality) :
    (codecStepFN fl q).source = q.source := by
  unfold codecStepFN; split_ifs <;> rfl

theorem audioStepFN_source (fl : List Char) (q : Quality) :
    (audioStepFN fl q).source = q.source := by
  unfold audioStepFN; split_ifs <;> rfl

theorem hdrStepFN_source (fl : List Char) (q : Quality) :
    (hdrStepFN fl q).source = q.source := by
  unfold hdrStepFN; split_ifs <;> rfl

/-- Neither attribute path ever writes the `source` field. -/
theorem branchQuality_source (f : String) (mi : Option MediaInfo) (hd : Option String) :
    (branchQuality f mi hd).source = "Unknown" := by
  cases mi with
  | some m =>
    unfold branchQuality
    rw [bitrateStep_source, hdrStepMI_source, audioStepMI_source, codecStepMI_source,
      resStepMI_source]
    rfl
  | none =>
    unfold branchQuality
    rw [hdrStepFN_source, audioStepFN_source, codecStepFN_source, resStepFN_source]
    rfl

/-- C6: the source label and the source point contribution are functions of
the file name alone — two scorer runs with any two prober/HDR-lookup
outcomes agree on both, and the source table is exactly Remux 35,
BluRay 30, WEB-DL 25, WEBRip 20, HDTV 15, DVDRip 10. -/
theorem C6_source_from_filename_only (f : String) (mi1 mi2 : Option MediaInfo)
    (hd1 hd2 : Option String) :
    (get_quality_score f mi1 hd1).source = (get_quality_score f mi2 hd2).source ∧
    (get_quality_score f mi1 hd1).score - (branchQuality f mi1 hd1).score =
      (get_quality_score f mi2 hd2).score - (branchQuality f mi2 hd2).score ∧
    ∀ lab pts, sourceTag (lowerList f.data) = some (lab, pts) →
      (lab, pts) ∈ [("Remux", 35), ("BluRay", 30), ("WEB-DL", 25), ("WEBRip", 20),
        ("HDTV", 15), ("DVDRip", 10)] := by
  refine ⟨?_, ?_, ?_⟩
  · unfold get_quality_score applySource
    cases hst : sourceTag (lowerList f.data) with
    | some p => obtain ⟨lab, pts⟩ := p; rfl
    | none => rw [branchQuality_source, branchQuality_source]
  · unfold get_quality_score applySource
    cases hst : sourceTag (lowerList f.data) with
    | some p => obtain ⟨lab, pts⟩ := p; simp
    | none => simp
  · intro lab pts h
    unfold sourceTag at h
    split_ifs at h <;> simp_all

/-! ## Year-token tracking through the title pipeline -/

/-- The text contains a `19xx`/`20xx` token at some position. -/
def hasTok (l : List Char) : Prop := ∃ i, yearHead (l.drop i) = true

/-- A four-character year token. -/
def isYearWord (w : List Char) : Prop := yearHead w = true ∧ w.length = 4

theorem yearHead_append (u v : List Char) (h : yearHead u = true) :
    yearHead (u ++ v) = true := by
  rcases u with _ | ⟨c1, _ | ⟨c2, _ | ⟨c3, _ | ⟨c4, rest⟩⟩⟩⟩ <;>
    simp_all [yearHead]

theorem infix_cons_ext {w l : List Char} {c : Char} (h : w <:+: l) : w <:+: c :: l := by
  obtain ⟨s, t, hst⟩ := h
  exact ⟨c :: s, t, by simp [hst]⟩

theorem word_of_tok (l : List Char) (h : hasTok l) :
    ∃ w, isYearWord w ∧ w <:+: l := by
  obtain ⟨i, hi⟩ := h
  rcases hd : l.drop i with _ | ⟨c1, _ | ⟨c2, _ | ⟨c3, _ | ⟨c4, r⟩⟩⟩⟩ <;>
    rw [hd] at hi <;> simp [yearHead] at hi
  refine ⟨[c1, c2, c3, c4], ⟨by simpa [yearHead] using hi, rfl⟩, ?_⟩
  refine ⟨l.take i, r, ?_⟩
  have := List.take_append_drop i l
  rw [hd] at this
  simpa using this

theorem tok_of_word (l w : List Char) (hw : isYearWord w) (hin : w <:+: l) : hasTok l := by
  obtain ⟨s, t, rfl⟩ := hin
  refine ⟨s.length, ?_⟩
  rw [show s ++ w ++ t = s ++ (w ++ t) by simp, List.drop_left]
  exact yearHead_append w t hw.1

theorem tok_transfer {l₁ l₂ : List Char} (h : l₁ <:+: l₂) (ht : hasTok l₁) : hasTok l₂ := by
  obtain ⟨w, hw, hin⟩ := word_of_tok l₁ ht
  exact tok_of_word l₂ w hw (hin.trans h)

/-- `truncAtYear` returns a prefix of its input. -/
theorem truncAtYear_isPre (l : List Char) : ∃ t, truncAtYear l ++ t = l := by
  induction l with
  | nil => exact ⟨[], rfl⟩
  | cons c cs ih =>
    unfold truncAtYear
    split
    · exact ⟨c :: cs, rfl⟩
    · obtain ⟨t, ht⟩ := ih
      exact ⟨t, by simp [ht]⟩

/-- The text before the cut position holds no year token: any token there
would itself have triggered the (leftmost) cut. -/
theorem truncAtYear_no_tok (l : List Char) : ∀ i, yearHead ((truncAtYear l).drop i) = false := by
  induction l with
  | nil => intro i; simp [truncAtYear]; rfl
  | cons c cs ih =>
    intro i
    unfold truncAtYear
    split
    · simp [yearHead]
    · rename_i hcond
      cases i with
      | zero =>
        simp only [List.drop_zero]
        cases hyh : yearHead (c :: truncAtYear cs) with
        | false => rfl
        | true =>
          exfalso
          rcases htc : truncAtYear cs with _ | ⟨d2, _ | ⟨d3, _ | ⟨d4, r⟩⟩⟩ <;>
            rw [htc] at hyh <;> simp [yearHead] at hyh
          obtain ⟨t, ht⟩ := truncAtYear_isPre cs
          rw [htc] at ht
          have hcs : yearHead (c :: cs) = true := by
            rw [← ht]
            simpa [yearHead] using hyh
          simp [hcs] at hcond
      | succ j =>
        simp only [List.drop_succ_cons]
        exact ih j

/-- `truncAtToks` returns a prefix of its input. -/
theorem truncAtToks_isPre (toks : List (List Char)) (l : List Char) :
    ∃ t, truncAtToks toks l ++ t = l := by
  induction l with
  | nil => exact ⟨[], rfl⟩
  | cons c cs ih =>
    unfold truncAtToks
    split
    · exact ⟨c :: cs, rfl⟩
    · obtain ⟨t, ht⟩ := ih
      exact ⟨t, by simp [ht]⟩

/-- A character map that fixes every character it sends to a digit cannot
create digits, hence cannot create year tokens. -/
def digitFix (f : Char → Char) : Prop := ∀ c, isDig (f c) = true → f c = c

theorem tok_map (f : Char → Char) (hf : digitFix f) (l : List Char)
    (h : hasTok (l.map f)) : hasTok l := by
  obtain ⟨i, hi⟩ := h
  rw [← List.map_drop] at hi
  refine ⟨i, ?_⟩
  rcases hd : l.drop i with _ | ⟨c1, _ | ⟨c2, _ | ⟨c3, _ | ⟨c4, r⟩⟩⟩⟩ <;>
    rw [hd] at hi <;> simp [yearHead] at hi ⊢
  obtain ⟨⟨h12, h3⟩, h4⟩ := hi
  have e3 : f c3 = c3 := hf c3 h3
  have e4 : f c4 = c4 := hf c4 h4
  refine ⟨⟨?_, by rw [← e3]; exact h3⟩, by rw [← e4]; exact h4⟩
  rcases h12 with ⟨ha, hb⟩ | ⟨ha, hb⟩
  · left
    have e1 : f c1 = c1 := hf c1 (by rw [ha]; decide)
    have e2 : f c2 = c2 := hf c2 (by rw [hb]; decide)
    rw [e1] at ha; rw [e2] at hb
    exact ⟨ha, hb⟩
  · right
    have e1 : f c1 = c1 := hf c1 (by rw [ha]; decide)
    have e2 : f c2 = c2 := hf c2 (by rw [hb]; decide)
    rw [e1] at ha; rw [e2] at hb
    exact ⟨ha, hb⟩

theorem digitFix_dotToSpace : digitFix dotToSpace := by
  intro c h
  unfold dotToSpace at h ⊢
  split_ifs at h ⊢ with hc
  · exact absurd h (by decide)
  · rfl

theorem digitFix_dashToSpace : digitFix dashToSpace := by
  intro c h
  unfold dashToSpace at h ⊢
  split_ifs at h ⊢ with hc
  · exact absurd h (by decide)
  · rfl

theorem digitFix_lowerChar : digitFix lowerChar := by
  intro c h
  unfold lowerChar at h ⊢
  cases hf : lowerPairs.find? (fun p => p.1 == c) with
  | none => rfl
  | some p =>
    exfalso
    rw [hf] at h
    have hmem : p ∈ lowerPairs := List.mem_of_find?_eq_some hf
    have hall : ∀ q ∈ lowerPairs, isDig q.2 = false := by decide
    rw [hall p hmem] at h
    cases h

theorem digit_not_space (c : Char) (h : isDig c = true) : mySpace c = false := by
  simp [isDig] at h
  rcases h with ((((((((rfl | rfl) | rfl) | rfl) | rfl) | rfl) | rfl) | rfl) | rfl) | rfl <;>
    decide

theorem isYearWord_nonspace (w : List Char) (hw : isYearWord w) :
    ∀ c ∈ w, mySpace c = false := by
  obtain ⟨hd, hlen⟩ := hw
  rcases w with _ | ⟨c1, _ | ⟨c2, _ | ⟨c3, _ | ⟨c4, r⟩⟩⟩⟩ <;> simp [yearHead] at hd <;>
    try simp at hlen
  have hr : r = [] := by simpa using hlen
  subst hr
  obtain ⟨⟨h12, h3⟩, h4⟩ := hd
  intro c hc
  simp at hc
  rcases hc with rfl | rfl | rfl | rfl
  · rcases h12 with ⟨rfl, -⟩ | ⟨rfl, -⟩ <;> decide
  · rcases h12 with ⟨-, rfl⟩ | ⟨-, rfl⟩ <;> decide
  · exact digit_not_space _ h3
  · exact digit_not_space _ h4

/-- A whitespace-free word that occurs in the whitespace-collapsed text
already occurs in the original text: the collapse never glues two
non-space characters together. -/
theorem nonspace_front_collapse (w : List Char) (hw : ∀ c ∈ w, mySpace c = false) :
    ∀ cs, w <+: collapseWs false cs → w <+: cs := by
  induction w with
  | nil => intro cs _; exact ⟨cs, rfl⟩
  | cons w0 ws ih =>
    intro cs h
    cases cs with
    | nil => simp [collapseWs] at h
    | cons d ds =>
      by_cases hd : mySpace d = true
      · simp only [collapseWs, hd, if_true, Bool.false_eq_true, if_false] at h
        obtain ⟨t, ht⟩ := h
        simp at ht
        obtain ⟨rfl, -⟩ := ht
        exact absurd (hw ' ' (List.mem_cons_self _ _)) (by decide)
      · simp only [collapseWs, hd, Bool.false_eq_true, if_false] at h
        rw [List.cons_prefix_cons] at h
        obtain ⟨rfl, hws⟩ := h
        exact List.cons_prefix_cons.mpr
          ⟨rfl, ih (fun c hc => hw c (List.mem_cons_of_mem _ hc)) ds hws⟩

theorem collapse_infix_w (w : List Char) (hw : ∀ c ∈ w, mySpace c = false) :
    ∀ (l : List Char) (b : Bool), w <:+: collapseWs b l → w <:+: l := by
  intro l
  induction l with
  | nil => intro b h; simpa [collapseWs] using h
  | cons c cs ih =>
    intro b h
    by_cases hc : mySpace c = true
    · cases b with
      | true =>
        simp only [collapseWs, hc, if_true] at h
        exact infix_cons_ext (ih true h)
      | false =>
        simp only [collapseWs, hc, if_true, Bool.false_eq_true, if_false] at h
        rcases List.infix_cons_iff.mp h with hpre | hinf
        · cases w with
          | nil => exact ⟨[], c :: cs, rfl⟩
          | cons w0 ws =>
            obtain ⟨t, ht⟩ := hpre
            simp at ht
            obtain ⟨rfl, -⟩ := ht
            exact absurd (hw ' ' (List.mem_cons_self _ _)) (by decide)
        · exact infix_cons_ext (ih true hinf)
    · simp only [collapseWs, hc, Bool.false_eq_true, if_false] at h
      rcases List.infix_cons_iff.mp h with hpre | hinf
      · cases w with
        | nil => exact ⟨[], c :: cs, rfl⟩
        | cons w0 ws =>
          rw [List.cons_prefix_cons] at hpre
          obtain ⟨rfl, hws⟩ := hpre
          have hws' : ws <+: cs :=
            nonspace_front_collapse ws (fun x hx => hw x (List.mem_cons_of_mem _ hx)) cs hws
          exact (List.cons_prefix_cons.mpr ⟨rfl, hws'⟩).isInfix
      · exact infix_cons_ext (ih false hinf)

theorem trim_within (l : List Char) : trim l <:+: l := by
  unfold trim
  have h1 : l.dropWhile mySpace <:+ l := List.dropWhile_suffix mySpace
  have h2 : (l.dropWhile mySpace).reverse.dropWhile mySpace <:+
      (l.dropWhile mySpace).reverse := List.dropWhile_suffix mySpace
  have h3 : ((l.dropWhile mySpace).reverse.dropWhile mySpace).reverse <+:
      l.dropWhile mySpace := by
    have := List.reverse_prefix.mpr h2
    simpa using this
  exact h3.isInfix.trans h1.isInfix

theorem dropArticle_suffix (l : List Char) : dropArticle l <:+ l := by
  unfold dropArticle
  split
  · split
    · rename_i c cs
      exact (List.dropWhile_suffix mySpace).trans ⟨['t', 'h', 'e'], rfl⟩
    · exact ⟨[], rfl⟩
  · split
    · rename_i c cs
      exact (List.dropWhile_suffix mySpace).trans ⟨['a', 'n'], rfl⟩
    · exact ⟨[], rfl⟩
  · split
    · rename_i c cs
      exact (List.dropWhile_suffix mySpace).trans ⟨['a'], rfl⟩
    · exact ⟨[], rfl⟩
  · exact ⟨[], rfl⟩

/-- The normalized title never contains a year token: the year truncation
cuts at the leftmost token, and every later pipeline stage (token
truncation, separator maps, whitespace collapse, strip, lowering,
article removal) cannot introduce one. -/
theorem normTitle_no_tok (b : List Char) : ¬ hasTok (normTitleChars b) := by
  intro h
  have h5 : hasTok (lowerList (trim (collapseWs false
      (List.map dashToSpace (List.map dotToSpace
        (truncAtToks normTokens (truncAtYear b))))))) :=
    tok_transfer (dropArticle_suffix _).isInfix h
  have h4 : hasTok (trim (collapseWs false
      (List.map dashToSpace (List.map dotToSpace
        (truncAtToks normTokens (truncAtYear b)))))) :=
    tok_map lowerChar digitFix_lowerChar _ h5
  have h3 : hasTok (collapseWs false
      (List.map dashToSpace (List.map dotToSpace
        (truncAtToks normTokens (truncAtYear b))))) :=
    tok_transfer (trim_within _) h4
  obtain ⟨w, hw, hin⟩ := word_of_tok _ h3
  have h2 : hasTok (List.map dashToSpace (List.map dotToSpace
      (truncAtToks normTokens (truncAtYear b)))) :=
    tok_of_word _ w hw (collapse_infix_w w (isYearWord_nonspace w hw) _ false hin)
  have h1 : hasTok (List.map dotToSpace (truncAtToks normTokens (truncAtYear b))) :=
    tok_map dashToSpace digitFix_dashToSpace _ h2
  have h0 : hasTok (truncAtToks normTokens (truncAtYear b)) :=
    tok_map dotToSpace digitFix_dotToSpace _ h1
  have hY : hasTok (truncAtYear b) := by
    obtain ⟨t, ht⟩ := truncAtToks_isPre normTokens (truncAtYear b)
    exact tok_transfer (⟨[], t, by simpa using ht⟩ : _ <:+: truncAtYear b) h0
  obtain ⟨i, hi⟩ := hY
  rw [truncAtYear_no_tok b i] at hi
  cases hi

/-- `re.search` finds the leftmost year token. -/
theorem findYear_leftmost (l : List Char) (i : Nat)
    (hi : yearHead (l.drop i) = true) (hmin : ∀ j, j < i → yearHead (l.drop j) = false) :
    findYear l = some ((l.drop i).take 4) := by
  induction l generalizing i with
  | nil => rw [List.drop_nil] at hi; cases hi
  | cons c cs ih =>
    cases i with
    | zero =>
      rw [List.drop_zero] at hi
      unfold findYear
      rw [if_pos hi, List.drop_zero]
    | succ j =>
      have h0 : yearHead (c :: cs) = false := by
        have := hmin 0 (Nat.succ_pos j)
        simpa using this
      unfold findYear
      rw [if_neg (by simp [h0])]
      rw [List.drop_succ_cons] at hi ⊢
      exact ih j hi fun j' hj' => by
        have := hmin (j' + 1) (by omega)
        simpa using this

/-- C2 (amended): for every name whose `Path(...).stem` contains a 4-digit
year token `19xx`/`20xx`, `get_normalized_title` returns exactly the
leftmost such token of the stem as the year, and a normalized title in
which no year token (in particular no occurrence of that year) remains. -/
theorem C2_year_leftmost_and_clean (name : String) (i : Nat)
    (hi : yearHead ((stemChars name.data).drop i) = true)
    (hmin : ∀ j, j < i → yearHead ((stemChars name.data).drop j) = false) :
    (get_normalized_title name).year =
      some (String.mk (((stemChars name.data).drop i).take 4)) ∧
    ∀ k, yearHead ((get_normalized_title name).normalized_title.data.drop k) = false := by
  constructor
  · simp only [get_normalized_title, normalizeStemFull]
    rw [findYear_leftmost _ i hi hmin]
    rfl
  · intro k
    cases hyk : yearHead ((get_normalized_title name).normalized_title.data.drop k) with
    | false => rfl
    | true =>
      exfalso
      exact normTitle_no_tok (stemChars name.data) ⟨k, hyk⟩

theorem C2_witness :
    (get_normalized_title "The.Matrix.1999.1080p.mkv").year =
      some (String.mk (((stemChars "The.Matrix.1999.1080p.mkv".data).drop 11).take 4)) ∧
    ∀ k, yearHead
      ((get_normalized_title "The.Matrix.1999.1080p.mkv").normalized_title.data.drop k)
      = false :=
  C2_year_leftmost_and_clean "The.Matrix.1999.1080p.mkv" 11 (by decide) (by decide)

/-- C2 as stated is violated: `"Heat.1995"` contains the year token `1995`
(at offset 5), yet the extension-stripping `Path(...).stem` step removes
it before year extraction, so no year is returned at all. -/
theorem C2_counterexample :
    get_normalized_title "Heat.1995" = { normalized_title := "heat", year := none } ∧
    yearHead ("Heat.1995".data.drop 5) = true :=
  ⟨by decide, by decide⟩

/-- C10 (amended): the final dot-separated segment is discarded before any
year or title parsing exactly when the last dot is neither the first nor
the last character (Python `Path.stem` semantics): in that case the
result is computed from the characters before the last dot alone.  The
claim's examples behave as described. -/
theorem C10_stem_strips_extension :
    (∀ (name : String) (i : Nat), lastDotIdx name.data = some i → 0 < i →
      i + 1 < name.data.length →
      get_normalized_title name = normalizeStemFull (name.data.take i)) ∧
    get_normalized_title "Heat.1995" = { normalized_title := "heat", year := none } ∧
    get_normalized_title "Mr. Nobody" = { normalized_title := "mr", year := none } := by
  refine ⟨?_, by decide, by decide⟩
  intro name i hlast h0 h1
  unfold get_normalized_title
  congr 1
  unfold stemChars
  rw [hlast]
  simp only [if_pos (And.intro h0 h1)]

theorem C10_witness :
    get_normalized_title "Heat.1995" = normalizeStemFull ("Heat.1995".data.take 4) :=
  C10_stem_strips_extension.1 "Heat.1995" 4 (by decide) (by decide) (by decide)

/-- C10 as stated is violated when the last dot is the first character:
`".1995"`'s final dot-separated segment is the whole `1995`, the stem
keeps it, and the year is extracted from it. -/
theorem C10_counterexample :
    get_normalized_title ".1995" = { normalized_title := "", year := some "1995" } ∧
    lastDotIdx ".1995".data = some 0 :=
  ⟨by decide, by decide⟩

theorem C6_witness :
    (get_quality_score "Film.2019.Remux.mkv" none none).source =
      (get_quality_score "Film.2019.Remux.mkv"
        (some { video_codec := "AVC", audio_codec := "AAC", width := 1920, height := 1080,
                bitrate := 8000000, audio_channels := 6, hdr := false })
        (some "HDR10")).source ∧
    (("Remux", 35) : String × Nat) ∈ [("Remux", 35), ("BluRay", 30), ("WEB-DL", 25),
      ("WEBRip", 20), ("HDTV", 15), ("DVDRip", 10)] :=
  ⟨(C6_source_from_filename_only "Film.2019.Remux.mkv" none
      (some { video_codec := "AVC", audio_codec := "AAC", width := 1920, height := 1080,
              bitrate := 8000000, audio_channels := 6, hdr := false })
      none (some "HDR10")).1,
   (C6_source_from_filename_only "Film.2019.Remux.mkv" none none none none).2.2
     "Remux" 35 (by decide)⟩
